import Mathlib

/-!
# Verification of the benthos transaction-pipeline slice

Shallow embedding of the Go sources:
* `lib/input/bloblang.go` — the Bloblang generator input (`newBloblang`,
  `Bloblang.ReadWithContext`, `getDurationTillNextSchedule`) and its
  acknowledgement function.
* `lib/output/writer/sftp.go` — `SFTP.initSFTPConnection`'s bounded
  connect-retry loop.
* the DynamoDB PartiQL writer's bulk/degrade/partial-retry write path and
  the xor condition, whose implementations are absent from the provided
  sources and are therefore modelled from the specification, validated
  against the repository's tests.

Machine integers (`int32 remaining`, attempt counters) are modelled as
`Int`/`Nat`; no value reachable in any statement below approaches a wrap
boundary.
-/

namespace Benthos

/-! ## Bloblang generator input (`lib/input/bloblang.go`)

`ReadWithContext` interacts with three external effects, made explicit as
inputs of the step function:
* the `select` over the ticker channel and `ctx.Done()` — a `TimerEvent`
  (a tick arrives, the ticker channel is closed, or the context is done);
* `exec.MapPart(0, message.New(nil))` — a `MapOut` (a part, a nil part, or
  an error);
* `time.Now()` in the configured location — an `Int` instant, with the
  cron schedule as a function `next : Int → Int` giving the next firing
  instant after a given instant (`schedule.Next(now)`).
-/

/-- Outcome of the `select` on the ticker channel / context in
`ReadWithContext` (only consulted when the code actually blocks). -/
inductive TimerEvent
  | tick
  | tickClosed
  | ctxDone
  deriving DecidableEq, Repr

/-- Result of `exec.MapPart(0, message.New(nil))`: a generated part, a nil
part, or a mapping error. -/
inductive MapOut (α : Type)
  | part (a : α)
  | nilPart
  | mapErr
  deriving DecidableEq, Repr

/-- Result of one `ReadWithContext` call: an emitted message (list of
parts), `types.ErrTypeClosed`, `types.ErrTimeout`, or a mapping error. -/
inductive ReadResult (α : Type)
  | msg (parts : List α)
  | closed
  | timeout
  | mapFail
  deriving DecidableEq, Repr

/-- Side effect of a read on the ticker: `timer.Reset(d)` with the
recomputed duration, or no reset. -/
inductive TimerAction
  | reset (d : Int)
  | noReset
  deriving DecidableEq, Repr

/-- The mutable state of the `Bloblang` input reader: the signed remaining
count, the first-is-free flag, whether a ticker exists, and the cron
schedule (`none` for interval mode or no timer). The schedule is the
function `now ↦ schedule.Next(now)` in the configured location. -/
structure BloblangState where
  remaining : Int
  firstIsFree : Bool
  hasTimer : Bool
  schedule : Option (Int → Int)

/-- `newBloblang`'s initialisation of the reader state from `conf.Count`
(the parsing of interval/cron strings is external; `hasTimer`/`schedule`
record its outcome): `remaining := conf.Count`, coerced to `-1` when
`≤ 0`, and `firstIsFree := true`. -/
def newBloblang (count : Int) (hasTimer : Bool) (schedule : Option (Int → Int)) :
    BloblangState :=
  { remaining := if count ≤ 0 then -1 else count
    firstIsFree := true
    hasTimer := hasTimer
    schedule := schedule }

/-- `getDurationTillNextSchedule(schedule, location)`:
`schedule.Next(now).Sub(now)` at the current instant. -/
def getDurationTillNextSchedule (next : Int → Int) (now : Int) : Int :=
  next now - now

/-- The tail of `ReadWithContext` from `b.firstIsFree = false` onwards:
run the mapping, emit a one-part message, and for cron schedules reset the
ticker to `getDurationTillNextSchedule` at the current instant. -/
def generatePart {α : Type} (b : BloblangState) (m : MapOut α) (now : Int) :
    ReadResult α × BloblangState × TimerAction :=
  let b' := { b with firstIsFree := false }
  match m with
  | .mapErr => (.mapFail, b', .noReset)
  | .nilPart => (.timeout, b', .noReset)
  | .part a =>
    match b'.schedule with
    | some next => (.msg [a], b', .reset (getDurationTillNextSchedule next now))
    | none => (.msg [a], b', .noReset)

/-- The wait-and-generate tail of `ReadWithContext`, shared by the counted
and uncounted paths: the `select` over ticker/context when the first free
read has been spent and a ticker exists, then part generation. -/
def readAfterCount {α : Type} (b : BloblangState) (ev : TimerEvent)
    (m : MapOut α) (now : Int) : ReadResult α × BloblangState × TimerAction :=
  if ¬b.firstIsFree ∧ b.hasTimer then
    match ev with
    | .tickClosed => (.closed, b, .noReset)
    | .ctxDone => (.timeout, b, .noReset)
    | .tick => generatePart b m now
  else
    generatePart b m now

/-- `Bloblang.ReadWithContext`: the count guard (`LoadInt32 ≥ 0` then
`AddInt32(-1) < 0` returns closed), then the first-is-free / ticker wait,
then part generation. The decrement writes back even on the closed path,
exactly as `atomic.AddInt32` does. -/
def ReadWithContext {α : Type} (b : BloblangState) (ev : TimerEvent)
    (m : MapOut α) (now : Int) : ReadResult α × BloblangState × TimerAction :=
  if b.remaining ≥ 0 then
    if b.remaining - 1 < 0 then
      (.closed, { b with remaining := b.remaining - 1 }, .noReset)
    else
      readAfterCount { b with remaining := b.remaining - 1 } ev m now
  else
    readAfterCount b ev m now

/-- Run a sequence of reads, collecting each read's result. -/
def runReads {α : Type} (b : BloblangState)
    (inputs : List (TimerEvent × MapOut α × Int)) :
    List (ReadResult α) × BloblangState :=
  match inputs with
  | [] => ([], b)
  | (ev, m, now) :: rest =>
    let step := ReadWithContext b ev m now
    let tail := runReads step.2.1 rest
    (step.1 :: tail.1, tail.2)

/-! ## Bloblang acknowledgement function

`ReadWithContext` returns the acknowledgement function
`func(context.Context, types.Response) error { return nil }`: its body
runs no acknowledgement effect and returns nil unconditionally.  `AckRun`
instruments invocations: `calls` counts how many times the function has
been invoked, `effects` counts acknowledgement effects its body executed
(the body executes none). -/

/-- Instrumented invocation record for an acknowledgement function. -/
structure AckRun where
  calls : Nat
  effects : Nat
  deriving DecidableEq, Repr

/-- The AckFn returned by `Bloblang.ReadWithContext`: returns nil, runs no
effect, regardless of the response or of how often it was called before. -/
def bloblangAckFn (s : AckRun) (_resp : Option String) : Option String × AckRun :=
  (none, { s with calls := s.calls + 1 })

/-- Invoke the bloblang AckFn `n` times in a row. -/
def resolveN (resp : Option String) : Nat → AckRun → AckRun
  | 0, s => s
  | n + 1, s => resolveN resp n (bloblangAckFn s resp).2

/-! ## SFTP connect-retry loop (`lib/output/writer/sftp.go`)

`SFTP.initSFTPConnection` dials in an unbounded `for` loop:
`connectionAttempts++`, dial; on failure it increments the
`connection_errors` counter, returns a permanent error once
`connectionAttempts >= 10`, and otherwise sleeps 5 seconds and retries.
`dial a` abstracts `ssh.Dial` on the `a`-th attempt (`true` = success). -/

/-- Observable trace of the connect loop: whether it ended in success, how
many dial attempts were made, how many times the connection-errors counter
was incremented, and the sequence of sleeps (in seconds) between attempts. -/
structure ConnectTrace where
  ok : Bool
  dials : Nat
  errIncrs : Nat
  sleeps : List Nat
  deriving DecidableEq, Repr

/-- The retry loop of `initSFTPConnection`, entered with the current value
of `connectionAttempts` (initially 0).  Each iteration increments the
attempt counter, dials, and on failure either gives up permanently at 10
attempts or sleeps 5 seconds and loops. -/
def connectLoop (dial : Nat → Bool) (attempts : Nat) : ConnectTrace :=
  let a := attempts + 1
  if dial a then
    { ok := true, dials := 1, errIncrs := 0, sleeps := [] }
  else if _h : a ≥ 10 then
    { ok := false, dials := 1, errIncrs := 1, sleeps := [] }
  else
    let rest := connectLoop dial a
    { ok := rest.ok
      dials := rest.dials + 1
      errIncrs := rest.errIncrs + 1
      sleeps := 5 :: rest.sleeps }
termination_by 10 - attempts
decreasing_by simp_wf; omega

/-- `initSFTPConnection` starts the loop with `connectionAttempts = 0`. -/
def initSFTPConnection (dial : Nat → Bool) : ConnectTrace :=
  connectLoop dial 0

/-! ## DynamoDB PartiQL write path

Modelled from the spec: the DynamoDB PartiQL writer implementation
(`lib/output/writer/dynamodb_partiql.go`) is absent from the provided
sources — only its tests are present.  The write path is modelled from
§4.5 ("prefer a single bulk operation per batch ... falling back to one
operation per record only on a recoverable bulk-operation error ... this
fallback must re-run every record individually and aggregate per-record
outcomes into a Batch Error") and §4.6 (the Partial-Batch-Failure
Tracker), and validated below against the expectations of
`TestDynamoDBPartiqlSadToGood`, `TestDynamoDBPartiqlSad`,
`TestDynamoDBPartiqlSadToGoodBatch` and `TestDynamoDBPartiqlSadBatch`. -/

/-- A Batch Error (§3): a base error plus a sparse mapping from record
index to per-record error. -/
structure BatchError (ε : Type) where
  base : ε
  failed : List (Nat × ε)
  deriving DecidableEq, Repr

/-- Modelled from the spec (§4.6): the Partial-Batch-Failure Tracker step.
`cur` is the current attempt's batch, each record paired with its original
batch index; `failedLocal` is the attempt-local failure index set reported
by the endpoint.  The next attempt's batch keeps, in order, exactly the
entries whose attempt-local position appears in `failedLocal`
(renumbering is by position in the resulting list). -/
def nextAttemptBatch {α : Type} (cur : List (Nat × α)) (failedLocal : List Nat) :
    List (Nat × α) :=
  (cur.enum.filter (fun p => failedLocal.contains p.1)).map Prod.snd

/-- Modelled from the spec (§4.6): the bounded partial-retry loop.
`resp attempt stmts` is the attempt-local failure index set the endpoint
reports for the submitted records `stmts` on attempt number `attempt`;
`fuel` bounds the number of further attempts.  On exhausting attempts the
final Batch Error embeds the count of still-failing records in its base
(`mkBase`) and names each still-failing record by its original batch
index with a per-record message (`mkErr`). -/
def retryLoop {α ε : Type} (resp : Nat → List α → List Nat)
    (mkBase : Nat → ε) (mkErr : α → ε) :
    Nat → Nat → List (Nat × α) → Option (BatchError ε)
  | attempt, fuel, cur =>
    let failedLocal := resp attempt (cur.map Prod.snd)
    if failedLocal.isEmpty then none
    else
      let next := nextAttemptBatch cur failedLocal
      match fuel with
      | 0 => some { base := mkBase next.length
                    failed := next.map (fun p => (p.1, mkErr p.2)) }
      | fuel' + 1 => retryLoop resp mkBase mkErr (attempt + 1) fuel' next

/-- Modelled from the spec (§4.5): the bulk-degrade fallback's per-record
failure aggregation — each record of the batch is re-run individually
exactly once in original order, and the failures are collected as a
sparse mapping keyed by original batch index. -/
def degradeFails {α ε : Type} (single : α → Option ε) (batch : List α) :
    List (Nat × ε) :=
  batch.enum.filterMap (fun p => (single p.2).map (fun m => (p.1, m)))

/-- Modelled from the spec (§4.5), continued: the degraded write runs the
individual executions and either succeeds (no individual failure) or
surfaces a Batch Error with the bulk error as base and `degradeFails` as
the sparse per-original-index failure mapping. -/
def degradeWrite {α ε : Type} (e : ε) (single : α → Option ε) (batch : List α) :
    List α × Option (BatchError ε) :=
  let fails := degradeFails single batch
  (batch, if fails.isEmpty then none else some { base := e, failed := fails })

/-- Modelled from the spec (§4.5/§4.6): the writer's `Write`.  `bulk` is
the outcome of the first bulk call on the full batch: `.error e` when the
bulk call itself failed outright, `.ok failedLocal` when it returned
per-index detail (empty meaning total success).  An outright bulk error
degrades to exactly-once per-record execution; per-index detail enters
the bounded partial-retry loop (attempt 2 onwards driven by `resp`) and
never runs records individually.  The first component is the trace of
individually executed records. -/
def dynWrite {α ε : Type} (bulk : Except ε (List Nat)) (single : α → Option ε)
    (resp : Nat → List α → List Nat) (mkBase : Nat → ε) (mkErr : α → ε)
    (fuel : Nat) (batch : List α) : List α × Option (BatchError ε) :=
  match bulk with
  | .error e => degradeWrite e single batch
  | .ok failedLocal =>
    ([],
      if failedLocal.isEmpty then none
      else retryLoop resp mkBase mkErr 2 fuel (nextAttemptBatch batch.enum failedLocal))

/-! ## Xor condition

Modelled from the spec: the xor condition implementation
(`lib/condition/xor.go`) is absent from the provided sources — only
`TestXorCheck` is present.  Modelled as the claim's exactly-one-child
semantics over the children's `Check` results, validated below against
every row of `TestXorCheck`'s table. -/

/-- Modelled from the spec: `Xor.Check` over the list of child conditions'
`Check` results — true precisely when exactly one child passed. -/
def xorCheck (children : List Bool) : Bool :=
  children.count true == 1

/-! ## Helper lemmas -/

/-- `generatePart` only flips `firstIsFree` in the state. -/
theorem generatePart_state {α : Type} (b : BloblangState) (m : MapOut α) (now : Int) :
    (generatePart b m now).2.1 = { b with firstIsFree := false } := by
  cases m with
  | mapErr => rfl
  | nilPart => rfl
  | part a =>
    unfold generatePart
    cases h : b.schedule <;> simp [h]

/-- A message emitted by `generatePart` is the single mapped part. -/
theorem generatePart_msg {α : Type} (b : BloblangState) (m : MapOut α) (now : Int)
    (xs : List α) (h : (generatePart b m now).1 = .msg xs) :
    ∃ a, m = .part a ∧ xs = [a] := by
  cases m with
  | mapErr => simp [generatePart] at h
  | nilPart => simp [generatePart] at h
  | part a =>
    refine ⟨a, rfl, ?_⟩
    unfold generatePart at h
    cases hs : b.schedule <;> simp [hs] at h <;> exact h.symm

/-- `readAfterCount` preserves the `remaining` field. -/
theorem readAfterCount_remaining {α : Type} (b : BloblangState) (ev : TimerEvent)
    (m : MapOut α) (now : Int) :
    (readAfterCount b ev m now).2.1.remaining = b.remaining := by
  unfold readAfterCount
  split
  · cases ev <;> simp [generatePart_state]
  · simp [generatePart_state]

/-- A message emitted by `readAfterCount` is the single mapped part. -/
theorem readAfterCount_msg {α : Type} (b : BloblangState) (ev : TimerEvent)
    (m : MapOut α) (now : Int) (xs : List α)
    (h : (readAfterCount b ev m now).1 = .msg xs) : ∃ a, m = .part a ∧ xs = [a] := by
  unfold readAfterCount at h
  split at h
  · cases ev with
    | tickClosed => simp at h
    | ctxDone => simp at h
    | tick => exact generatePart_msg _ _ _ _ h
  · exact generatePart_msg _ _ _ _ h

/-- A message emitted by `ReadWithContext` is the single mapped part. -/
theorem ReadWithContext_msg {α : Type} (b : BloblangState) (ev : TimerEvent)
    (m : MapOut α) (now : Int) (xs : List α)
    (h : (ReadWithContext b ev m now).1 = .msg xs) : ∃ a, m = .part a ∧ xs = [a] := by
  unfold ReadWithContext at h
  split at h
  · split at h
    · simp at h
    · exact readAfterCount_msg _ _ _ _ _ h
  · exact readAfterCount_msg _ _ _ _ _ h

/-- On an emission, `generatePart` resets the ticker to the freshly
recomputed duration when a cron schedule is present. -/
theorem generatePart_action {α : Type} (b : BloblangState) (m : MapOut α)
    (now : Int) (xs : List α) (next : Int → Int) (hs : b.schedule = some next)
    (h : (generatePart b m now).1 = .msg xs) :
    (generatePart b m now).2.2 = .reset (getDurationTillNextSchedule next now) := by
  obtain ⟨a, rfl, rfl⟩ := generatePart_msg _ _ _ _ h
  unfold generatePart
  simp [hs]

/-- On an emission, `readAfterCount` resets the ticker to the freshly
recomputed duration when a cron schedule is present. -/
theorem readAfterCount_action {α : Type} (b : BloblangState) (ev : TimerEvent)
    (m : MapOut α) (now : Int) (xs : List α) (next : Int → Int)
    (hs : b.schedule = some next) (h : (readAfterCount b ev m now).1 = .msg xs) :
    (readAfterCount b ev m now).2.2 = .reset (getDurationTillNextSchedule next now) := by
  unfold readAfterCount at h ⊢
  by_cases hc : ¬b.firstIsFree ∧ b.hasTimer
  · rw [if_pos hc] at h ⊢
    cases ev with
    | tickClosed => simp at h
    | ctxDone => simp at h
    | tick => exact generatePart_action _ _ _ _ _ hs h
  · rw [if_neg hc] at h ⊢
    exact generatePart_action _ _ _ _ _ hs h

/-- On an emission, `ReadWithContext` resets the ticker to the freshly
recomputed duration when a cron schedule is present. -/
theorem ReadWithContext_action {α : Type} (b : BloblangState) (ev : TimerEvent)
    (m : MapOut α) (now : Int) (xs : List α) (next : Int → Int)
    (hs : b.schedule = some next) (h : (ReadWithContext b ev m now).1 = .msg xs) :
    (ReadWithContext b ev m now).2.2 = .reset (getDurationTillNextSchedule next now) := by
  unfold ReadWithContext at h ⊢
  by_cases hr : b.remaining ≥ 0
  · rw [if_pos hr] at h ⊢
    by_cases h2 : b.remaining - 1 < 0
    · rw [if_pos h2] at h
      simp at h
    · rw [if_neg h2] at h ⊢
      exact readAfterCount_action _ _ _ _ _ _ hs h
  · rw [if_neg hr] at h ⊢
    exact readAfterCount_action _ _ _ _ _ _ hs h

/-- Invoking the bloblang AckFn `n` times adds `n` calls and no effects. -/
theorem resolveN_spec (r : Option String) (n : Nat) (s : AckRun) :
    (resolveN r n s).effects = s.effects ∧ (resolveN r n s).calls = s.calls + n := by
  induction n generalizing s with
  | zero => simp [resolveN]
  | succ k ih =>
    have h := ih (bloblangAckFn s r).2
    simp only [resolveN, bloblangAckFn] at h ⊢
    omega

/-- The next attempt's batch is a sublist of the current attempt's batch:
order is preserved and no entry is invented. -/
theorem nextAttemptBatch_sublist {α : Type} (cur : List (Nat × α)) (failed : List Nat) :
    List.Sublist (nextAttemptBatch cur failed) cur := by
  have h1 : List.Sublist (cur.enum.filter (fun p => failed.contains p.1)) cur.enum :=
    List.filter_sublist _
  have h2 := h1.map Prod.snd
  rwa [List.enum_map_snd] at h2

/-- Entries of the next attempt's batch come from the current batch. -/
theorem nextAttemptBatch_mem {α : Type} {cur : List (Nat × α)} {failed : List Nat}
    {p : Nat × α} (h : p ∈ nextAttemptBatch cur failed) : p ∈ cur :=
  (nextAttemptBatch_sublist cur failed).subset h

/-- Enumerating an already-enumerated list pairs each entry with its own
recorded index. -/
theorem enumFrom_self_indexed {α : Type} (l : List α) :
    ∀ n, List.enumFrom n (List.enumFrom n l) =
      (List.enumFrom n l).map (fun p => (p.1, p)) := by
  induction l with
  | nil => intro n; rfl
  | cons a l ih =>
    intro n
    simp only [List.enumFrom_cons, List.map_cons]
    rw [ih (n + 1)]

/-- `l.enum.enum` pairs each indexed entry with its own index. -/
theorem enum_enum {α : Type} (l : List α) :
    l.enum.enum = l.enum.map (fun p => (p.1, p)) := by
  have := enumFrom_self_indexed l 0
  simpa [List.enum] using this

/-- On the first retry transition (from the original batch, where the
attempt-local index IS the original index) the tracker keeps exactly the
indexed records whose original index appears in the failure mapping, in
original relative order. -/
theorem nextAttemptBatch_enum {α : Type} (batch : List α) (failed : List Nat) :
    nextAttemptBatch batch.enum failed =
      batch.enum.filter (fun p => failed.contains p.1) := by
  unfold nextAttemptBatch
  rw [enum_enum, List.filter_map]
  rw [List.map_map]
  rw [show (Prod.snd ∘ fun p : Nat × α => (p.1, p)) = id from rfl]
  rw [List.map_id]
  rfl

/-- Original-index integrity of the bounded retry loop: if every entry of
the current attempt's batch is correctly paired with its original batch
index, then the final surfaced Batch Error names still-failing records by
indices valid in the original batch, carrying those records' messages. -/
theorem retryLoop_failed_orig {α ε : Type} (resp : Nat → List α → List Nat)
    (mkBase : Nat → ε) (mkErr : α → ε) (batch : List α) :
    ∀ (fuel attempt : Nat) (cur : List (Nat × α)) (be : BatchError ε),
      (∀ p ∈ cur, batch[p.1]? = some p.2) →
      retryLoop resp mkBase mkErr attempt fuel cur = some be →
      ∀ q ∈ be.failed, ∃ a, batch[q.1]? = some a ∧ q.2 = mkErr a := by
  intro fuel
  induction fuel with
  | zero =>
    intro attempt cur be hinv hloop q hq
    rw [retryLoop] at hloop
    simp only at hloop
    split at hloop
    · exact absurd hloop (by simp)
    · obtain rfl := Option.some_inj.mp hloop
      simp only [List.mem_map] at hq
      obtain ⟨p, hp, rfl⟩ := hq
      have hpc : p ∈ cur := nextAttemptBatch_mem hp
      exact ⟨p.2, hinv p hpc, rfl⟩
  | succ k ih =>
    intro attempt cur be hinv hloop q hq
    rw [retryLoop] at hloop
    simp only at hloop
    split at hloop
    · exact absurd hloop (by simp)
    · refine ih (attempt + 1) (nextAttemptBatch cur (resp attempt (cur.map Prod.snd)))
        be ?_ hloop q hq
      intro p hp
      exact hinv p (nextAttemptBatch_mem hp)

/-- Membership in the degraded write's failure aggregation: exactly the
original indices whose record fails its individual execution, with that
failure's message. -/
theorem mem_degradeFails {α ε : Type} (single : α → Option ε) (batch : List α)
    (i : Nat) (mm : ε) :
    (i, mm) ∈ degradeFails single batch ↔
      ∃ a, batch[i]? = some a ∧ single a = some mm := by
  unfold degradeFails
  constructor
  · intro hmem
    obtain ⟨p, hp, hmap⟩ := List.mem_filterMap.mp hmem
    obtain ⟨m₀, hm₀, heq⟩ := Option.map_eq_some'.mp hmap
    rcases p with ⟨j, a⟩
    have hj : j = i := congrArg Prod.fst heq
    have hmeq : m₀ = mm := congrArg Prod.snd heq
    subst hj
    subst hmeq
    exact ⟨a, List.mk_mem_enum_iff_getElem?.mp hp, hm₀⟩
  · rintro ⟨a, hia, hsa⟩
    exact List.mem_filterMap.mpr
      ⟨(i, a), List.mk_mem_enum_iff_getElem?.mpr hia, by rw [hsa]; rfl⟩

/-- The degraded write aggregates no failure exactly when every record of
the batch succeeds individually. -/
theorem degradeFails_eq_nil_iff {α ε : Type} (single : α → Option ε)
    (batch : List α) :
    degradeFails single batch = [] ↔ ∀ a ∈ batch, single a = none := by
  unfold degradeFails
  rw [List.filterMap_eq_nil_iff]
  constructor
  · intro h a ha
    obtain ⟨i, hi⟩ := List.mem_iff_getElem?.mp ha
    have := h (i, a) (List.mk_mem_enum_iff_getElem?.mpr hi)
    simpa [Option.map_eq_none'] using this
  · rintro h ⟨i, a⟩ hmem
    have hia : batch[i]? = some a := List.mk_mem_enum_iff_getElem?.mp hmem
    have ha : a ∈ batch := by
      obtain ⟨hlt, rfl⟩ := List.getElem?_eq_some_iff.mp hia
      exact List.getElem_mem hlt
    rw [h a ha]
    rfl

/-! ## Claim theorems -/

/-- C3 (counterexample): for a batch emitted by the bloblang source, a
second invocation of its acknowledgment function is NOT surfaced as a
double-resolve error: starting from a fresh invocation record, resolving
twice returns nil (no error) on the second call and the record shows two
calls and zero acknowledgment effects — the repeat call is silently
accepted, contradicting the claim that it is surfaced as a distinct
double-resolve error condition. -/
theorem C3_second_resolve_silent :
    (bloblangAckFn (bloblangAckFn ⟨0, 0⟩ none).2 none).1 = none ∧
    (bloblangAckFn (bloblangAckFn ⟨0, 0⟩ none).2 none).2 = ⟨2, 0⟩ := by
  decide

/-- C3 (amended): for every batch emitted by the bloblang source,
resolving its acknowledgment obligation runs effects at most once no
matter how many times resolve is invoked (it runs none at all), and a
repeated invocation is a silent no-op returning success (nil), not a
surfaced double-resolve error: every call returns `none`, a call never
changes the effect count, and `n` invocations from a fresh record leave
zero effects while recording `n` calls. -/
theorem C3_resolve_effects_at_most_once (s : AckRun) (r : Option String) (n : Nat) :
    (bloblangAckFn s r).1 = none ∧
    (bloblangAckFn s r).2.effects = s.effects ∧
    (resolveN r n ⟨0, 0⟩).effects = 0 ∧
    (resolveN r n ⟨0, 0⟩).calls = n := by
  refine ⟨rfl, rfl, ?_, ?_⟩
  · exact (resolveN_spec r n ⟨0, 0⟩).1
  · simpa using (resolveN_spec r n ⟨0, 0⟩).2

/-- C4 (code bug): in the code as written, a cancelled read DOES consume a
count slot.  With a bloblang input configured with count = 2 and an
interval ticker: the 1st read (tick arrives) emits a batch, the 2nd read
is cancelled (context done) and returns the timeout outcome — yet the
remaining count drops from 1 to 0, because `ReadWithContext` decrements
`b.remaining` before blocking on the ticker and never restores it — so
the 3rd read (tick arrives) reports Closed and only one batch is ever
emitted, where the claim requires the cancelled read to leave the
remaining count unchanged and two batches to remain emittable. -/
theorem C4_cancelled_read_consumes_slot :
    (runReads (newBloblang 2 true none)
        [(.tick, .part 0, 0), (.ctxDone, .part 0, 0), (.tick, .part 0, 0)]).1 =
      [ReadResult.msg [0], ReadResult.timeout, ReadResult.closed] ∧
    (runReads (newBloblang 2 true none) [(.tick, .part (0 : Nat), 0)]).2.remaining = 1 ∧
    (runReads (newBloblang 2 true none)
        [(.tick, .part 0, 0), (.ctxDone, .part (0 : Nat), 0)]).2.remaining = 0 := by
  refine ⟨?_, ?_, ?_⟩ <;> decide

/-- C10: the xor condition's Check over the child conditions' results is
true iff exactly one child's Check is true: for one child it equals that
child's result, for two children it is true precisely when the two
children disagree, and it reproduces every row of `TestXorCheck`'s
table. -/
theorem C10_xor_exactly_one :
    (∀ cs : List Bool, xorCheck cs = true ↔ cs.count true = 1) ∧
    (∀ b : Bool, xorCheck [b] = b) ∧
    (∀ a b : Bool, xorCheck [a, b] = (a != b)) ∧
    (xorCheck [true] = true ∧ xorCheck [true, true] = false ∧
      xorCheck [false] = false ∧ xorCheck [false, false] = false ∧
      xorCheck [false, true] = true ∧ xorCheck [true, false] = true) := by
  refine ⟨?_, ?_, ?_, by decide⟩
  · intro cs
    simp [xorCheck]
  · intro b
    cases b <;> decide
  · intro a b
    cases a <;> cases b <;> decide

/-- C5: when every connect attempt to the SFTP endpoint fails,
`initSFTPConnection` retries under a bounded loop: it makes exactly 10
dial attempts with a fixed 5-second pause between consecutive attempts
(hence 9 pauses), increments the connection-errors counter once per
failed attempt, and then stops retrying and returns the permanent
connection error (`ok = false`) instead of retrying forever. -/
theorem C5_connect_retry_bounded (dial : Nat → Bool) (hfail : ∀ a, dial a = false) :
    initSFTPConnection dial =
      { ok := false, dials := 10, errIncrs := 10, sleeps := List.replicate 9 5 } := by
  have hd : dial = fun _ => false := funext hfail
  subst hd
  simp [initSFTPConnection, connectLoop, List.replicate]

/-- C5 witness: the bounded-retry theorem at the concrete always-failing
dialer. -/
theorem C5_connect_retry_bounded_witness :
    initSFTPConnection (fun _ => false) =
      { ok := false, dials := 10, errIncrs := 10, sleeps := List.replicate 9 5 } :=
  C5_connect_retry_bounded (fun _ => false) (fun _ => rfl)

/-- C6: for a timer-driven (uncounted) bloblang source, the very first
read after construction returns a batch immediately — the result is a
message whatever the timer event is, so no tick is awaited — and every
subsequent read (the first-is-free flag now spent) blocks on the ticker:
with the context cancelled it returns the timeout outcome without
emitting, and it emits exactly when the tick arrives. -/
theorem C6_first_read_is_free {α : Type} (sch : Option (Int → Int)) (a : α)
    (ev : TimerEvent) (m : MapOut α) (now now' : Int) (b : BloblangState)
    (hf : b.firstIsFree = false) (ht : b.hasTimer = true) (hr : b.remaining < 0) :
    (ReadWithContext (newBloblang 0 true sch) ev (.part a) now).1 = .msg [a] ∧
    (ReadWithContext (newBloblang 0 true sch) ev (.part a) now).2.1.firstIsFree = false ∧
    (ReadWithContext b .ctxDone m now').1 = .timeout ∧
    (ReadWithContext b .tick (.part a) now').1 = .msg [a] := by
  have hb0 : ∀ ev' : TimerEvent,
      ReadWithContext (newBloblang 0 true sch) ev' (.part a) now =
        generatePart (newBloblang 0 true sch) (.part a) now := by
    intro ev'
    unfold ReadWithContext newBloblang readAfterCount
    norm_num
  refine ⟨?_, ?_, ?_, ?_⟩
  · rw [hb0 ev]
    unfold generatePart newBloblang
    cases sch <;> simp
  · rw [hb0 ev, generatePart_state]
  · unfold ReadWithContext readAfterCount
    rw [if_neg (by omega), if_pos (by simp [hf, ht])]
  · unfold ReadWithContext readAfterCount
    rw [if_neg (by omega), if_pos (by simp [hf, ht])]
    unfold generatePart
    cases hsch : b.schedule <;> simp [hsch]

/-- C6 witness: the first-is-free theorem at a concrete interval source
(no cron schedule) and the concrete post-first-read state. -/
theorem C6_first_read_is_free_witness :
    (ReadWithContext (newBloblang 0 true none) .ctxDone (.part (0 : Nat)) 0).1 =
        .msg [0] ∧
    (ReadWithContext (newBloblang 0 true none) .ctxDone (.part (0 : Nat)) 0).2.1.firstIsFree =
        false ∧
    (ReadWithContext (⟨-1, false, true, none⟩ : BloblangState) .ctxDone (.part (0 : Nat)) 0).1 = .timeout ∧
    (ReadWithContext (⟨-1, false, true, none⟩ : BloblangState) .tick (.part (0 : Nat)) 0).1 = .msg [0] :=
  C6_first_read_is_free none 0 .ctxDone (.part 0) 0 0
    (⟨-1, false, true, none⟩ : BloblangState)
    rfl rfl (by decide)

/-- C7: a remaining count of −1 means unlimited emissions (a read never
returns Closed unless the ticker channel itself closed, and leaves the
count at −1); a non-negative remaining count is decremented by one on an
emitting read; a remaining count of 0 makes the read report Closed (the
count would go negative); and a source constructed with count = 2 emits
exactly 2 batches and reports Closed on the 3rd read. -/
theorem C7_count_limited_semantics {α : Type} (b : BloblangState) (ev : TimerEvent)
    (m : MapOut α) (now : Int) (xs : List α)
    (h1 : b.remaining = -1) (hev : ev ≠ .tickClosed)
    (b' : BloblangState) (h2 : b'.remaining ≥ 0)
    (b'' : BloblangState) (h3 : b''.remaining = 0) :
    ((ReadWithContext b ev m now).1 ≠ .closed ∧
      (ReadWithContext b ev m now).2.1.remaining = -1) ∧
    ((ReadWithContext b' ev m now).1 = .msg xs →
      (ReadWithContext b' ev m now).2.1.remaining = b'.remaining - 1) ∧
    (ReadWithContext b'' ev m now).1 = .closed ∧
    (runReads (newBloblang 2 true none)
        [(.tick, .part 0, 0), (.tick, .part 0, 0), (.tick, .part (0 : Nat), 0)]).1 =
      [ReadResult.msg [0], ReadResult.msg [0], ReadResult.closed] := by
  refine ⟨⟨?_, ?_⟩, ?_, ?_, by decide⟩
  · unfold ReadWithContext readAfterCount
    rw [if_neg (by omega)]
    split
    · cases ev with
      | tickClosed => exact absurd rfl hev
      | ctxDone => simp
      | tick =>
        unfold generatePart
        cases m with
        | mapErr => simp
        | nilPart => simp
        | part a => cases hsch : b.schedule <;> simp [hsch]
    · unfold generatePart
      cases m with
      | mapErr => simp
      | nilPart => simp
      | part a => cases hsch : b.schedule <;> simp [hsch]
  · unfold ReadWithContext
    rw [if_neg (by omega)]
    rw [readAfterCount_remaining, h1]
  · intro h
    unfold ReadWithContext at h ⊢
    rw [if_pos h2] at h ⊢
    by_cases hd : b'.remaining - 1 < 0
    · rw [if_pos hd] at h
      simp at h
    · rw [if_neg hd] at h ⊢
      rw [readAfterCount_remaining]
  · unfold ReadWithContext
    rw [if_pos (by omega), if_pos (by omega)]

/-- C7 witness: the count semantics at concrete states (unlimited state,
a state with remaining 1 emitting under a tick, and an exhausted state). -/
theorem C7_count_limited_semantics_witness :
    ((ReadWithContext (⟨-1, true, true, none⟩ : BloblangState) .tick (.part (0 : Nat)) 0).1 ≠ .closed ∧
      (ReadWithContext (⟨-1, true, true, none⟩ : BloblangState) .tick (.part (0 : Nat)) 0).2.1.remaining = -1) ∧
    ((ReadWithContext (⟨1, true, true, none⟩ : BloblangState) .tick (.part (0 : Nat)) 0).1 = .msg [0] →
      (ReadWithContext (⟨1, true, true, none⟩ : BloblangState) .tick (.part (0 : Nat)) 0).2.1.remaining = 1 - 1) ∧
    (ReadWithContext (⟨0, true, true, none⟩ : BloblangState) .tick (.part (0 : Nat)) 0).1 = .closed ∧
    (runReads (newBloblang 2 true none)
        [(.tick, .part 0, 0), (.tick, .part 0, 0), (.tick, .part (0 : Nat), 0)]).1 =
      [ReadResult.msg [0], ReadResult.msg [0], ReadResult.closed] :=
  C7_count_limited_semantics
    (⟨-1, true, true, none⟩ : BloblangState)
    .tick (.part 0) 0 [0] rfl (by decide)
    (⟨1, true, true, none⟩ : BloblangState)
    (by decide)
    (⟨0, true, true, none⟩ : BloblangState)
    rfl

/-- C8: whenever a cron-scheduled bloblang read emits, the ticker is reset
to `getDurationTillNextSchedule` at the current instant — the duration
`schedule.Next(now) − now` recomputed from the wall clock at the firing,
for every prior state; in particular two consecutive firings at instants
`now₁` and `now₂` reset the ticker to `next now₁ − now₁` and
`next now₂ − now₂` respectively, with no dependence on the previously
computed duration. -/
theorem C8_cron_recomputed_from_now {α : Type} (b : BloblangState) (ev : TimerEvent)
    (m : MapOut α) (now : Int) (xs : List α) (next : Int → Int) (a : α)
    (now₁ now₂ : Int)
    (hs : b.schedule = some next) (h : (ReadWithContext b ev m now).1 = .msg xs) :
    (ReadWithContext b ev m now).2.2 =
      .reset (getDurationTillNextSchedule next now) ∧
    getDurationTillNextSchedule next now = next now - now ∧
    (ReadWithContext (newBloblang 0 true (some next)) .tick (.part a) now₁).2.2 =
      .reset (next now₁ - now₁) ∧
    (ReadWithContext
        (ReadWithContext (newBloblang 0 true (some next)) .tick (.part a) now₁).2.1
        .tick (.part a) now₂).2.2 =
      .reset (next now₂ - now₂) := by
  refine ⟨ReadWithContext_action _ _ _ _ _ _ hs h, rfl, ?_, ?_⟩
  · unfold ReadWithContext newBloblang readAfterCount generatePart
    norm_num [getDurationTillNextSchedule]
  · unfold ReadWithContext newBloblang readAfterCount generatePart
    norm_num [getDurationTillNextSchedule]

/-- C8 witness: the recomputation theorem at a concrete cron schedule
(next firing at the next multiple of 10) and a concrete emitting read. -/
theorem C8_cron_recomputed_from_now_witness :
    (ReadWithContext (⟨-1, true, true, some (fun t => t + 10)⟩ : BloblangState) .tick (.part (0 : Nat)) 3).2.2 =
      .reset (getDurationTillNextSchedule (fun t => t + 10) 3) ∧
    getDurationTillNextSchedule (fun t => t + 10) 3 = (fun t : Int => t + 10) 3 - 3 ∧
    (ReadWithContext (newBloblang 0 true (some (fun t => t + 10))) .tick
        (.part (0 : Nat)) 4).2.2 = .reset ((fun t : Int => t + 10) 4 - 4) ∧
    (ReadWithContext
        (ReadWithContext (newBloblang 0 true (some (fun t => t + 10))) .tick
          (.part (0 : Nat)) 4).2.1 .tick (.part (0 : Nat)) 9).2.2 =
      .reset ((fun t : Int => t + 10) 9 - 9) :=
  C8_cron_recomputed_from_now
    (⟨-1, true, true, some (fun t => t + 10)⟩ : BloblangState)
    .tick (.part 0) 3 [0] (fun t => t + 10) 0 4 9 rfl (by decide)

/-- C9: the bloblang source never emits an empty batch — every read whose
result is a message carries at least one part (exactly the one mapped
part) — and when the mapping produces no part (`MapPart` returns nil) on
a read that reaches generation, the read returns the timeout ("no data,
retry later") outcome, not an empty message and not the Closed
sentinel. -/
theorem C9_no_empty_batch {α : Type} (b : BloblangState) (ev : TimerEvent)
    (m : MapOut α) (now : Int) (xs : List α) (b' : BloblangState)
    (h : (ReadWithContext b ev m now).1 = .msg xs)
    (hr : 1 ≤ b'.remaining ∨ b'.remaining < 0)
    (hw : b'.firstIsFree = true ∨ ev = .tick) :
    1 ≤ xs.length ∧
    (ReadWithContext b' ev (.nilPart : MapOut α) now).1 = .timeout := by
  constructor
  · obtain ⟨a, _, rfl⟩ := ReadWithContext_msg _ _ _ _ _ h
    simp
  · have hgen : ∀ bg : BloblangState,
        (generatePart bg (.nilPart : MapOut α) now).1 = .timeout := by
      intro bg
      rfl
    have hrac : (readAfterCount b' ev (.nilPart : MapOut α) now).1 = .timeout := by
      unfold readAfterCount
      rcases hw with hw | hw
      · rw [if_neg (by simp [hw])]
        exact hgen _
      · subst hw
        split
        · exact hgen _
        · exact hgen _
    unfold ReadWithContext
    rcases hr with h1 | h1
    · rw [if_pos (by omega), if_neg (by omega)]
      have : (readAfterCount { b' with remaining := b'.remaining - 1 } ev
          (.nilPart : MapOut α) now).1 = .timeout := by
        unfold readAfterCount
        rcases hw with hw | hw
        · rw [if_neg (by simp [hw])]
          exact hgen _
        · subst hw
          split
          · exact hgen _
          · exact hgen _
      exact this
    · rw [if_neg (by omega)]
      exact hrac

/-- C9 witness: the no-empty-batch theorem at a concrete emitting read and
a concrete nil-part read. -/
theorem C9_no_empty_batch_witness :
    1 ≤ ([0] : List Nat).length ∧
    (ReadWithContext (⟨-1, true, true, none⟩ : BloblangState) .tick (.nilPart : MapOut Nat) 0).1 = .timeout :=
  C9_no_empty_batch
    (⟨-1, true, true, none⟩ : BloblangState)
    .tick (.part 0) 0 [0]
    (⟨-1, true, true, none⟩ : BloblangState)
    (by decide) (Or.inr (by decide)) (Or.inl rfl)

/-- C1: the Partial-Batch-Failure Tracker.  The next attempt's batch is an
ordered sub-sequence (sublist) of the current attempt's batch; on the
transition from the original batch it keeps exactly the indexed records
whose original index appears in the failure mapping, in original relative
order (renumbering is positional); when retry attempts are exhausted the
surfaced Batch Error names still-failing records by their original batch
indices; and on the spec's 3-record scenario: attempt 1 failing index 1
makes attempt 2 resend exactly original record 1, a successful attempt 2
yields a nil final error, and an attempt 2 failing its attempt-local
index 0 surfaces final original index 1. -/
theorem C1_partial_retry_tracker {α ε : Type} (cur : List (Nat × α))
    (failed : List Nat) (batch : List α) (resp : Nat → List α → List Nat)
    (mkBase : Nat → ε) (mkErr : α → ε) (fuel attempt : Nat) (be : BatchError ε)
    (hinv : ∀ p ∈ cur, batch[p.1]? = some p.2)
    (hloop : retryLoop resp mkBase mkErr attempt fuel cur = some be) :
    List.Sublist (nextAttemptBatch cur failed) cur ∧
    nextAttemptBatch batch.enum failed =
      batch.enum.filter (fun p => failed.contains p.1) ∧
    (∀ q ∈ be.failed, ∃ a, batch[q.1]? = some a ∧ q.2 = mkErr a) ∧
    (nextAttemptBatch ([10, 20, 30] : List Nat).enum [1]).map Prod.snd = [20] ∧
    dynWrite (Except.ok [1]) (fun _ => (none : Option Nat)) (fun _ _ => [])
      id id 1 [10, 20, 30] = ([], none) ∧
    dynWrite (Except.ok [1]) (fun _ => (none : Option Nat)) (fun _ _ => [0])
      id id 0 [10, 20, 30] = ([], some ⟨1, [(1, 20)]⟩) :=
  ⟨nextAttemptBatch_sublist cur failed, nextAttemptBatch_enum batch failed,
   retryLoop_failed_orig resp mkBase mkErr batch fuel attempt cur be hinv hloop,
   by decide, by decide, by decide⟩

/-- C1 witness: the tracker theorem applied at the concrete retry state of
the spec's scenario — attempt 2 holds original record 1 (the record `20`
of batch `[10, 20, 30]`), fails its local index 0 with no attempts left,
and the surfaced error is keyed by original index 1. -/
theorem C1_partial_retry_tracker_witness :
    List.Sublist (nextAttemptBatch [((1 : Nat), (20 : Nat))] [0]) [(1, 20)] ∧
    dynWrite (Except.ok [1]) (fun _ => (none : Option Nat)) (fun _ _ => [0])
      id id 0 [10, 20, 30] = ([], some ⟨1, [(1, 20)]⟩) :=
  ⟨(C1_partial_retry_tracker [(1, 20)] [0] [10, 20, 30] (fun _ _ => [0]) id id 0 2
      ⟨1, [(1, 20)]⟩ (by decide) (by decide)).1,
   (C1_partial_retry_tracker [(1, 20)] [0] [10, 20, 30] (fun _ _ => [0]) id id 0 2
      ⟨1, [(1, 20)]⟩ (by decide) (by decide)).2.2.2.2.2⟩

/-- C2: the bulk-degrade fallback.  When the bulk call itself errors
outright, the sink re-runs every record of the batch individually exactly
once in original batch order (the individual-execution trace is the batch
itself), and aggregates per-record outcomes into a Batch Error whose base
is the bulk error and whose failure indices are exactly the original
batch indices of individually-failing records (no error at all when every
record succeeds individually); and when the bulk call merely returned
per-index detail (partial success), no record is run individually.  The
two concrete instances mirror `TestDynamoDBPartiqlSad` (bar fails
individually) and `TestDynamoDBPartiqlSadToGood` (all succeed). -/
theorem C2_bulk_degrade_fallback {α ε : Type} (e : ε) (single : α → Option ε)
    (resp : Nat → List α → List Nat) (mkBase : Nat → ε) (mkErr : α → ε)
    (fuel : Nat) (batch : List α) (failedLocal : List Nat) (be : BatchError ε)
    (hsome : (dynWrite (Except.error e) single resp mkBase mkErr fuel batch).2 =
      some be) :
    (dynWrite (Except.error e) single resp mkBase mkErr fuel batch).1 = batch ∧
    (dynWrite (Except.ok failedLocal) single resp mkBase mkErr fuel batch).1 = [] ∧
    ((dynWrite (Except.error e) single resp mkBase mkErr fuel batch).2 = none ↔
      ∀ a ∈ batch, single a = none) ∧
    be.base = e ∧
    (∀ (i : Nat) (mm : ε), (i, mm) ∈ be.failed ↔
      ∃ a, batch[i]? = some a ∧ single a = some mm) ∧
    dynWrite (Except.error 7) (fun a => if a = 20 then some 99 else (none : Option Nat))
      (fun _ _ => []) id id 0 [10, 20, 30] = ([10, 20, 30], some ⟨7, [(1, 99)]⟩) ∧
    dynWrite (Except.error 7) (fun _ => (none : Option Nat)) (fun _ _ => []) id id 0
      [10, 20, 30] = ([10, 20, 30], none) := by
  have hfails : (dynWrite (Except.error e) single resp mkBase mkErr fuel batch).2 =
      (if (degradeFails single batch).isEmpty then none
        else some { base := e, failed := degradeFails single batch }) := rfl
  refine ⟨rfl, rfl, ?_, ?_, ?_, by decide, by decide⟩
  · rw [hfails]
    by_cases hemp : (degradeFails single batch).isEmpty
    · rw [if_pos hemp]
      rw [List.isEmpty_iff] at hemp
      simp only [true_iff]
      exact (degradeFails_eq_nil_iff single batch).mp hemp
    · rw [if_neg hemp]
      rw [List.isEmpty_iff] at hemp
      simp only [reduceCtorEq, false_iff]
      intro hall
      exact hemp ((degradeFails_eq_nil_iff single batch).mpr hall)
  · rw [hfails] at hsome
    by_cases hemp : (degradeFails single batch).isEmpty
    · rw [if_pos hemp] at hsome
      exact absurd hsome (by simp)
    · rw [if_neg hemp] at hsome
      obtain rfl := Option.some_inj.mp hsome
      rfl
  · rw [hfails] at hsome
    by_cases hemp : (degradeFails single batch).isEmpty
    · rw [if_pos hemp] at hsome
      exact absurd hsome (by simp)
    · rw [if_neg hemp] at hsome
      obtain rfl := Option.some_inj.mp hsome
      intro i mm
      exact mem_degradeFails single batch i mm

/-- C2 witness: the bulk-degrade theorem at the `TestDynamoDBPartiqlSad`
shape — bulk error 7 ("woop"), record 20 ("bar") failing individually
with error 99 — projecting the exactly-once in-order trace and the
surfaced Batch Error's base. -/
theorem C2_bulk_degrade_fallback_witness :
    (dynWrite (Except.error 7)
        (fun a => if a = 20 then some 99 else (none : Option Nat))
        (fun _ _ => []) id id 0 [10, 20, 30]).1 = [10, 20, 30] ∧
    (⟨7, [(1, 99)]⟩ : BatchError Nat).base = 7 :=
  ⟨(C2_bulk_degrade_fallback 7
      (fun a => if a = 20 then some 99 else (none : Option Nat))
      (fun _ _ => []) id id 0 [10, 20, 30] [1] ⟨7, [(1, 99)]⟩ (by decide)).1,
   (C2_bulk_degrade_fallback 7
      (fun a => if a = 20 then some 99 else (none : Option Nat))
      (fun _ _ => []) id id 0 [10, 20, 30] [1] ⟨7, [(1, 99)]⟩ (by decide)).2.2.2.1⟩

end Benthos
